import Mathlib

/-!
Shallow embedding of the WASAText persistence layer (Go, package `database`
plus the login/forward HTTP handlers that sit directly on top of it).

The SQLite tables become lists of rows held in a `DBState`; each Go store
method becomes a pure function `DBState → … → Except DBError …`.  SQL
semantics used throughout:

* `QueryRow …` / `find?` returns the first matching row;
* a plain `INSERT` appends a row, failing with `sqlConstraint` when the
  table's primary key is already present;
* `INSERT OR IGNORE` appends only when the key is absent;
* `INSERT OR REPLACE` deletes any row with the same key, then appends;
* `UPDATE` maps over the rows; `DELETE` filters them;
* a transaction that fails rolls everything back, which the `Except`
  error result models (no state is carried on errors).

Generated identifiers (`uuid.NewV4`) and the clock (`time.Now`,
`CURRENT_TIMESTAMP`) enter as explicit parameters.  The goroutine in
`CreateMessage` that advances the fresh message to `received` is
sequentialised to run immediately after the insert.
-/

/-- A row of the `users` table: `id TEXT PRIMARY KEY, name TEXT UNIQUE
NOT NULL, photo BLOB`. -/
structure UserRow where
  id : String
  name : String
  photo : Option String
deriving DecidableEq, Repr

/-- A row of the `groups` table. -/
structure GroupRow where
  id : String
  name : String
  photo : Option String
deriving DecidableEq, Repr

/-- A row of `group_members`; primary key `(group_id, user_id)`. -/
structure GroupMemberRow where
  groupId : String
  userId : String
deriving DecidableEq, Repr

/-- A row of `conversations`: `id TEXT PRIMARY KEY, is_group BOOLEAN,
group_id TEXT` (nullable). -/
structure ConvRow where
  id : String
  isGroup : Bool
  groupId : Option String
deriving DecidableEq, Repr

/-- A row of `conversation_participants`; primary key
`(conversation_id, user_id)`, with a nullable `last_read_time`. -/
structure ParticipantRow where
  convId : String
  userId : String
  lastReadTime : Option Nat
deriving DecidableEq, Repr

/-- A row of the `messages` table. -/
structure MsgRow where
  id : String
  convId : String
  senderId : String
  content : Option String
  photo : Option String
  timestamp : Nat
  status : String
  replyTo : Option String
deriving DecidableEq, Repr

/-- A row of the `comments` (reactions) table; primary key
`(message_id, user_id)`. -/
structure CommentRow where
  msgId : String
  userId : String
  emoticon : String
deriving DecidableEq, Repr

/-- The whole SQLite database. -/
structure DBState where
  users : List UserRow
  groups : List GroupRow
  groupMembers : List GroupMemberRow
  conversations : List ConvRow
  participants : List ParticipantRow
  messages : List MsgRow
  comments : List CommentRow
deriving DecidableEq, Repr

/-- The typed failures of `database.go` (`ErrUserNotFound`, …) together
with `invalidInput` (the handler-level 400), `sqlConstraint` (a primary
key violation surfaced by the driver) and `noRows` (a raw `sql.ErrNoRows`
returned without translation). -/
inductive DBError where
  | userNotFound
  | usernameTaken
  | groupNotFound
  | notGroupMember
  | conversationNotFound
  | messageNotFound
  | notMessageOwner
  | commentNotFound
  | invalidInput
  | sqlConstraint
  | noRows
deriving DecidableEq, Repr

/-- `Except.isOk` written out, to state that an operation succeeds. -/
def exceptIsOk : Except DBError α → Bool
  | .ok _ => true
  | .error _ => false

/-! ## Identity store (`users.go`) -/

/-- `GetUserByName`: first row of `users` with the given name, else
`ErrUserNotFound`. -/
def getUserByName (s : DBState) (name : String) : Except DBError UserRow :=
  match s.users.find? (fun u => u.name == name) with
  | some u => .ok u
  | none => .error .userNotFound

/-- `GetUserByID`. -/
def getUserByID (s : DBState) (id : String) : Except DBError UserRow :=
  match s.users.find? (fun u => u.id == id) with
  | some u => .ok u
  | none => .error .userNotFound

/-- `CreateUser`: returns the existing id when the name is taken
(idempotent login), otherwise inserts a fresh row.  Note: the store
performs no validation of the name whatsoever. -/
def createUser (s : DBState) (name newId : String) :
    Except DBError (String × DBState) :=
  match s.users.find? (fun u => u.name == name) with
  | some u => .ok (u.id, s)
  | none =>
      if s.users.any (fun u => u.id == newId) then .error .sqlConstraint
      else .ok (newId, { s with users := s.users ++ [⟨newId, name, none⟩] })

/-- The `DoLogin` handler: validates the username length (in bytes, as
Go `len` does) to be within `[3,16]` and only then calls the store. -/
def doLogin (s : DBState) (name newId : String) :
    Except DBError (String × DBState) :=
  if name.utf8ByteSize < 3 || name.utf8ByteSize > 16 then .error .invalidInput
  else createUser s name newId

/-- `UpdateUserName`: the taken-name pre-check runs first; the
`rowsAffected = 0` check afterwards reports `ErrUserNotFound`. -/
def updateUserName (s : DBState) (userID newName : String) :
    Except DBError DBState :=
  match s.users.find? (fun u => u.name == newName) with
  | some u =>
      if u.id ≠ userID then .error .usernameTaken
      else updateRow
  | none => updateRow
where
  updateRow : Except DBError DBState :=
    if s.users.any (fun u => u.id == userID) then
      .ok { s with users :=
        s.users.map (fun u => if u.id == userID then { u with name := newName } else u) }
    else .error .userNotFound

/-! ## Conversation store (`conversations.go`) -/

/-- Is `uid` a row of `conversation_participants` for `cid`? -/
def isParticipant (s : DBState) (cid uid : String) : Bool :=
  s.participants.any (fun p => p.convId == cid && p.userId == uid)

/-- Does `cid` name a conversation with `is_group = 0`? -/
def convIsDirect (s : DBState) (cid : String) : Bool :=
  s.conversations.any (fun c => c.id == cid && !c.isGroup)

/-- The lookup query of `GetOrCreateDirectConversation`: the self-join of
`conversation_participants` filtered to `cp1.user_id = a`,
`cp2.user_id = b` and `c.is_group = 0`, scanning the first `cp1` row that
matches. -/
def findDirectConversation (s : DBState) (a b : String) : Option String :=
  (s.participants.find? (fun p =>
    p.userId == a && isParticipant s p.convId b && convIsDirect s p.convId)).map
    (fun p => p.convId)

/-- `GetOrCreateDirectConversation`: return the existing conversation if
the lookup finds one; otherwise insert, inside one transaction, a fresh
non-group conversation and the two participant rows (each insert subject
to its primary-key constraint). -/
def getOrCreateDirectConversation (s : DBState) (a b newId : String) :
    Except DBError (String × DBState) :=
  match findDirectConversation s a b with
  | some cid => .ok (cid, s)
  | none =>
      if s.conversations.any (fun c => c.id == newId) then .error .sqlConstraint
      else
        let s1 : DBState :=
          { s with conversations := s.conversations ++ [⟨newId, false, none⟩] }
        if s1.participants.any (fun p => p.convId == newId && p.userId == a) then
          .error .sqlConstraint
        else
          let s2 : DBState :=
            { s1 with participants := s1.participants ++ [⟨newId, a, none⟩] }
          if s2.participants.any (fun p => p.convId == newId && p.userId == b) then
            .error .sqlConstraint
          else
            .ok (newId,
              { s2 with participants := s2.participants ++ [⟨newId, b, none⟩] })

/-- `MarkConversationAsRead`: stamp `last_read_time` for the `(cid,uid)`
participant row, then set `status = 'read'` on every message of the
conversation whose sender is not `uid` and whose status is not already
`'read'`.  Both statements are unconditional updates and never fail. -/
def markConversationAsRead (s : DBState) (cid uid : String) (t : Nat) :
    Except DBError DBState :=
  let s1 : DBState :=
    { s with participants := s.participants.map (fun p =>
        if p.convId == cid && p.userId == uid then
          { p with lastReadTime := some t } else p) }
  .ok { s1 with messages := s1.messages.map (fun m =>
      if m.convId == cid && m.senderId != uid && m.status != "read" then
        { m with status := "read" } else m) }

/-! ## Message store (`messages.go`) -/

/-- `GetMessage` (the parts relevant here): the `messages ⋈ users` join
on the sender, yielding `ErrMessageNotFound` when either side is
missing. -/
def getMessage (s : DBState) (mid : String) : Except DBError MsgRow :=
  match s.messages.find? (fun m => m.id == mid) with
  | none => .error .messageNotFound
  | some m =>
      match s.users.find? (fun u => u.id == m.senderId) with
      | none => .error .messageNotFound
      | some _ => .ok m

/-- The row `CreateMessage` inserts: `status = 'sent'`, with empty
content / reply-to strings becoming NULL as in the Go nil handling. -/
def newMsgRow (conversationID senderID content : String)
    (photo replyTo : Option String) (newId : String) (t : Nat) : MsgRow :=
  { id := newId, convId := conversationID, senderId := senderID
    content := if content == "" then none else some content
    photo := photo, timestamp := t, status := "sent"
    replyTo := match replyTo with
      | some r => if r == "" then none else some r
      | none => none }

/-- The `UPDATE messages SET status = 'received' WHERE id = ?` of
`updateMessageStatusForRecipients`, as a per-row function. -/
def advanceToReceived (newId : String) (m : MsgRow) : MsgRow :=
  if m.id == newId then { m with status := "received" } else m

/-- `CreateMessage`: insert the row with `status = 'sent'`, immediately
advance it to `'received'` (the sequentialised goroutine
`updateMessageStatusForRecipients`), then resolve the sender. -/
def createMessage (s : DBState) (conversationID senderID content : String)
    (photo : Option String) (replyTo : Option String) (newId : String) (t : Nat) :
    Except DBError (MsgRow × DBState) :=
  let row : MsgRow := newMsgRow conversationID senderID content photo replyTo newId t
  if s.messages.any (fun m => m.id == newId) then .error .sqlConstraint
  else
    let s1 : DBState := { s with messages := s.messages ++ [row] }
    let s2 : DBState :=
      { s1 with messages := s1.messages.map (advanceToReceived newId) }
    match s2.users.find? (fun u => u.id == senderID) with
    | none => .error .userNotFound
    | some _ => .ok (row, s2)

/-- `DeleteMessage`: look the message up, refuse non-owners, then delete
its comments and the message itself. -/
def deleteMessage (s : DBState) (mid uid : String) : Except DBError DBState :=
  match s.messages.find? (fun m => m.id == mid) with
  | none => .error .messageNotFound
  | some m =>
      if m.senderId ≠ uid then .error .notMessageOwner
      else .ok { s with
        comments := s.comments.filter (fun c => !(c.msgId == mid)),
        messages := s.messages.filter (fun m2 => !(m2.id == mid)) }

/-- `UpdateMessageStatus`: write the supplied status verbatim; report
`ErrMessageNotFound` when no row was affected. -/
def updateMessageStatus (s : DBState) (mid status : String) :
    Except DBError DBState :=
  if s.messages.any (fun m => m.id == mid) then
    .ok { s with messages := s.messages.map (fun m =>
        if m.id == mid then { m with status := status } else m) }
  else .error .messageNotFound

/-- `AddComment`: check the message via `GetMessage`, then
`INSERT OR REPLACE` the `(message, user)` reaction row. -/
def addComment (s : DBState) (mid uid emoticon : String) :
    Except DBError DBState :=
  match getMessage s mid with
  | .error e => .error e
  | .ok _ =>
      let kept := s.comments.filter (fun c => !(c.msgId == mid && c.userId == uid))
      .ok { s with comments := kept ++ [⟨mid, uid, emoticon⟩] }

/-- `RemoveComment`: delete the `(message, user)` reaction row,
reporting `ErrCommentNotFound` when no row was affected. -/
def removeComment (s : DBState) (mid uid : String) : Except DBError DBState :=
  if s.comments.any (fun c => c.msgId == mid && c.userId == uid) then
    let kept := s.comments.filter (fun c => !(c.msgId == mid && c.userId == uid))
    .ok { s with comments := kept }
  else .error .commentNotFound

/-! ## Group store (`groups.go`) -/

/-- `IsGroupMember`: `COUNT(*) > 0` over `group_members`. -/
def isGroupMember (s : DBState) (gid uid : String) : Bool :=
  s.groupMembers.any (fun m => m.groupId == gid && m.userId == uid)

/-- One turn of `CreateGroup`'s member loop: skip the creator, then plain
`INSERT` into `group_members` and `conversation_participants` (each may
hit its primary-key constraint, aborting the transaction). -/
def addGroupMemberPair (gid cid creator : String)
    (acc : Except DBError DBState) (uid : String) : Except DBError DBState :=
  match acc with
  | .error e => .error e
  | .ok s =>
      if uid == creator then .ok s
      else if isGroupMember s gid uid then .error .sqlConstraint
      else
        let s1 : DBState :=
          { s with groupMembers := s.groupMembers ++ [⟨gid, uid⟩] }
        if isParticipant s1 cid uid then .error .sqlConstraint
        else .ok { s1 with participants := s1.participants ++ [⟨cid, uid, none⟩] }

/-- `CreateGroup`: inside one transaction create the group row, its
paired conversation (`is_group = 1`), the creator's membership and
participant rows, then loop over `memberIDs`. -/
def createGroup (s : DBState) (name creatorID : String)
    (memberIDs : List String) (gid cid : String) :
    Except DBError (String × DBState) :=
  if s.groups.any (fun g => g.id == gid) then .error .sqlConstraint
  else
    let s1 : DBState := { s with groups := s.groups ++ [⟨gid, name, none⟩] }
    if s1.conversations.any (fun c => c.id == cid) then .error .sqlConstraint
    else
      let s2 : DBState :=
        { s1 with conversations := s1.conversations ++ [⟨cid, true, some gid⟩] }
      if isGroupMember s2 gid creatorID then .error .sqlConstraint
      else
        let s3 : DBState :=
          { s2 with groupMembers := s2.groupMembers ++ [⟨gid, creatorID⟩] }
        if isParticipant s3 cid creatorID then .error .sqlConstraint
        else
          let s4 : DBState :=
            { s3 with participants := s3.participants ++ [⟨cid, creatorID, none⟩] }
          match memberIDs.foldl (addGroupMemberPair gid cid creatorID) (.ok s4) with
          | .error e => .error e
          | .ok s5 => .ok (gid, s5)

/-- `AddUserToGroup`: adder-membership check first, then user existence,
then the `SELECT id FROM conversations WHERE group_id = ?` lookup, then
`INSERT OR IGNORE` into both membership relations. -/
def addUserToGroup (s : DBState) (gid uid adderID : String) :
    Except DBError DBState :=
  if !isGroupMember s gid adderID then .error .notGroupMember
  else
    match s.users.find? (fun u => u.id == uid) with
    | none => .error .userNotFound
    | some _ =>
        match s.conversations.find? (fun c => c.groupId == some gid) with
        | none => .error .noRows
        | some c =>
            let s1 : DBState :=
              if isGroupMember s gid uid then s
              else { s with groupMembers := s.groupMembers ++ [⟨gid, uid⟩] }
            .ok (if isParticipant s1 c.id uid then s1
              else { s1 with participants := s1.participants ++ [⟨c.id, uid, none⟩] })

/-- `RemoveUserFromGroup`: membership check, conversation lookup, then
delete from both membership relations. -/
def removeUserFromGroup (s : DBState) (gid uid : String) :
    Except DBError DBState :=
  if !isGroupMember s gid uid then .error .notGroupMember
  else
    match s.conversations.find? (fun c => c.groupId == some gid) with
    | none => .error .noRows
    | some c =>
        .ok { s with
          groupMembers := s.groupMembers.filter (fun m =>
            !(m.groupId == gid && m.userId == uid)),
          participants := s.participants.filter (fun p =>
            !(p.convId == c.id && p.userId == uid)) }

/-! ## The forward handler (`ForwardMessage`) -/

/-- The state-relevant skeleton of `GetConversation`: participant gate
(collapsing "absent" and "not yours" into `ErrConversationNotFound`),
the group lookup when the conversation is a group one, and the
mark-as-read side effect (whose error is discarded in the source). -/
def getConversationStep (s : DBState) (uid cid : String) (t : Nat) :
    Except DBError DBState :=
  if !isParticipant s cid uid then .error .conversationNotFound
  else
    match s.conversations.find? (fun c => c.id == cid) with
    | none => .error .conversationNotFound
    | some c =>
        match c.groupId with
        | some g =>
            if c.isGroup && !(s.groups.any (fun gr => gr.id == g)) then
              .error .groupNotFound
            else
              match markConversationAsRead s cid uid t with
              | .ok s1 => .ok s1
              | .error _ => .ok s
        | none =>
            match markConversationAsRead s cid uid t with
            | .ok s1 => .ok s1
            | .error _ => .ok s

/-- The `ForwardMessage` handler: source-conversation gate, source
message lookup, target-conversation gate, then `CreateMessage` with the
original content and photo and `replyTo = nil`. -/
def forwardMessage (s : DBState) (uid srcCid mid targetCid newId : String)
    (t1 t2 t3 : Nat) : Except DBError (MsgRow × DBState) :=
  match getConversationStep s uid srcCid t1 with
  | .error e => .error e
  | .ok s1 =>
      match getMessage s1 mid with
      | .error e => .error e
      | .ok orig =>
          match getConversationStep s1 uid targetCid t2 with
          | .error e => .error e
          | .ok s2 =>
              createMessage s2 targetCid uid (orig.content.getD "") orig.photo
                none newId t3

/-! ## Derived notions used by the statements -/

/-- Rank of a message status in the lifecycle order
`sent < received < read`; unknown strings rank lowest. -/
def statusRank (st : String) : Nat :=
  if st == "read" then 2 else if st == "received" then 1 else 0

/-- `c` is a non-group conversation having both `a` and `b` among its
participants. -/
def directBoth (s : DBState) (c a b : String) : Prop :=
  convIsDirect s c = true ∧ isParticipant s c a = true ∧ isParticipant s c b = true

/-- At most one non-group conversation contains both `a` and `b`. -/
def atMostOneDirectPair (s : DBState) (a b : String) : Prop :=
  ∀ c1 c2, directBoth s c1 a b → directBoth s c2 a b → c1 = c2

/-- `newId` appears nowhere among the conversation ids or participant
rows — the situation for a fresh UUID. -/
def freshConvId (s : DBState) (newId : String) : Prop :=
  (∀ c ∈ s.conversations, c.id ≠ newId) ∧ (∀ p ∈ s.participants, p.convId ≠ newId)

/-- The group/conversation pairing is well-formed: conversation ids are
unique and no two conversations are paired with the same group. -/
def pairingSane (s : DBState) : Prop :=
  (∀ c1 ∈ s.conversations, ∀ c2 ∈ s.conversations, c1.id = c2.id → c1 = c2) ∧
  (∀ c1 ∈ s.conversations, ∀ c2 ∈ s.conversations, ∀ g,
    c1.groupId = some g → c2.groupId = some g → c1 = c2)

/-- The lock-step invariant of the spec: for every conversation paired
with a group, group membership and conversation participation agree. -/
def groupSynced (s : DBState) : Prop :=
  ∀ c ∈ s.conversations, ∀ g, c.groupId = some g →
    ∀ u, isGroupMember s g u = isParticipant s c.id u

/-- Freshness of a new group id: unused by groups, pairings and
membership rows. -/
def freshGroupId (s : DBState) (gid : String) : Prop :=
  (∀ g ∈ s.groups, g.id ≠ gid) ∧ (∀ c ∈ s.conversations, c.groupId ≠ some gid) ∧
  (∀ m ∈ s.groupMembers, m.groupId ≠ gid)

/-! ## Generic list facts used below -/

/-- `any` over a `filter` folds the two predicates together. -/
theorem any_filter_eq (l : List α) (p q : α → Bool) :
    (l.filter p).any q = l.any (fun x => p x && q x) := by
  induction l with
  | nil => rfl
  | cons x xs ih => by_cases h : p x <;> simp [List.filter_cons, h, List.any_cons, ih]

/-- Pointwise relation between a list and its image under a map. -/
theorem forall₂_map_self {α : Type} (l : List α) (g : α → α) (R : α → α → Prop)
    (h : ∀ x ∈ l, R x (g x)) : List.Forall₂ R l (l.map g) := by
  induction l with
  | nil => exact List.Forall₂.nil
  | cons x xs ih =>
      exact List.Forall₂.cons (h x (List.mem_cons_self x xs))
        (ih (fun y hy => h y (List.mem_cons_of_mem x hy)))

/-! ## Example states used by the counterexamples and witnesses -/

/-- The empty database. -/
def emptyDB : DBState := ⟨[], [], [], [], [], [], []⟩

/-- Two users, nothing else. -/
def twoUsersDB : DBState :=
  { emptyDB with users := [⟨"u1", "maria", none⟩, ⟨"u2", "luigi", none⟩] }

/-! ## C6 — the store performs no username-length validation -/

/-- C6 counterexample: `CreateUser` succeeds on the 2-character name
`"ab"`, although the claim says the store itself rejects every name of
length outside `[3,16]` with `InvalidInput`. -/
theorem createUser_accepts_short_name :
    createUser emptyDB "ab" "u1" =
      .ok ("u1", { emptyDB with users := [⟨"u1", "ab", none⟩] }) ∧
    "ab".utf8ByteSize < 3 := ⟨rfl, by decide⟩

/-- C6 (amended): the store itself accepts any name whatsoever — for a
fresh id, `CreateUser` always succeeds; the `[3,16]` length check lives
only in the `DoLogin` handler, which rejects out-of-range names with
`InvalidInput` before ever reaching the store. -/
theorem createUser_no_length_validation (s : DBState) (name newId : String)
    (hfresh : ∀ u ∈ s.users, u.id ≠ newId) :
    exceptIsOk (createUser s name newId) = true ∧
    ((name.utf8ByteSize < 3 ∨ 16 < name.utf8ByteSize) →
      doLogin s name newId = .error .invalidInput) := by
  constructor
  · unfold createUser
    cases hfind : s.users.find? (fun u => u.name == name) with
    | some u => rfl
    | none =>
        have hany : s.users.any (fun u => u.id == newId) = false := by
          rw [← Bool.not_eq_true, List.any_eq_true]
          rintro ⟨u, hu, hid⟩
          exact hfresh u hu (by simpa using hid)
        simp [hany, exceptIsOk]
  · intro h
    unfold doLogin
    have hcond : (decide (name.utf8ByteSize < 3) ||
        decide (name.utf8ByteSize > 16)) = true := by
      rcases h with h | h <;> simp [h]
    simp [hcond]

/-- C6 witness: the amended theorem applied to a concrete state. -/
theorem createUser_no_length_validation_witness :
    exceptIsOk (createUser twoUsersDB "x" "u9") = true :=
  (createUser_no_length_validation twoUsersDB "x" "u9" (by decide)).1


/-! ## C10 — `UpdateUserName` checks the taken name before existence -/

/-- C10: when `userID` does not exist, `UpdateUserName` reports
`NameTaken` whenever some existing user already holds `newName` (the
taken-name pre-check runs first), and reports `NotFound` only when
`newName` is free. -/
theorem updateUserName_taken_before_notFound (s : DBState) (uid newName : String)
    (h0 : ∀ u ∈ s.users, u.id ≠ uid) :
    ((∃ w ∈ s.users, w.name = newName) →
      updateUserName s uid newName = .error .usernameTaken) ∧
    ((∀ w ∈ s.users, w.name ≠ newName) →
      updateUserName s uid newName = .error .userNotFound) := by
  constructor
  · rintro ⟨w, hw, hname⟩
    have hsome : (s.users.find? (fun u => u.name == newName)).isSome := by
      rw [List.find?_isSome]
      exact ⟨w, hw, by simp [hname]⟩
    rcases Option.isSome_iff_exists.mp hsome with ⟨v, hv⟩
    have hvmem : v ∈ s.users := List.mem_of_find?_eq_some hv
    have hvid : v.id ≠ uid := h0 v hvmem
    unfold updateUserName
    rw [hv]
    simp [hvid]
  · intro hfree
    have hnone : s.users.find? (fun u => u.name == newName) = none := by
      rw [List.find?_eq_none]
      intro u hu
      simp [hfree u hu]
    have hany : s.users.any (fun u => u.id == uid) = false := by
      rw [← Bool.not_eq_true, List.any_eq_true]
      rintro ⟨u, hu, hid⟩
      exact h0 u hu (by simpa using hid)
    unfold updateUserName updateUserName.updateRow
    rw [hnone]
    simp [hany]

/-- C10 witness: a state holding only `"luigi"` under id `u2`; renaming
the absent id `zz` to `"luigi"` gives `NameTaken`, renaming it to the
free name `"peach"` gives `NotFound`. -/
theorem updateUserName_taken_before_notFound_witness :
    updateUserName twoUsersDB "zz" "luigi" = .error .usernameTaken ∧
    updateUserName twoUsersDB "zz" "peach" = .error .userNotFound :=
  ⟨(updateUserName_taken_before_notFound twoUsersDB "zz" "luigi" (by decide)).1
      ⟨⟨"u2", "luigi", none⟩, by decide, rfl⟩,
    (updateUserName_taken_before_notFound twoUsersDB "zz" "peach" (by decide)).2
      (by decide)⟩

/-! ## C5 — `AddUserToGroup` error order -/

/-- C5 counterexample: with no groups at all, `AddUserToGroup` on the
absent group `g1` reports `NotAMember`, not the `NotFound` the claim
demands (the adder-membership check runs first and an absent group has
no members). -/
theorem addUserToGroup_absent_group_reports_notAMember :
    addUserToGroup twoUsersDB "g1" "u2" "u1" = .error .notGroupMember ∧
    DBError.notGroupMember ≠ DBError.groupNotFound := ⟨rfl, by decide⟩

/-- C5 (amended): `AddUserToGroup` reports `NotAMember` whenever the
adder is not currently a member — which includes the case of an absent
group, since an absent group has no membership rows; with the adder a
member it reports `NotFound` when the user to add does not exist;
otherwise it inserts the user into both group membership and the group
conversation's participants, and re-adding an existing member (already
in both relations) succeeds as a no-op. -/
theorem addUserToGroup_error_order_and_noop (s : DBState) (gid uid adderID : String) :
    (isGroupMember s gid adderID = false →
      addUserToGroup s gid uid adderID = .error .notGroupMember) ∧
    (isGroupMember s gid adderID = true → (∀ u ∈ s.users, u.id ≠ uid) →
      addUserToGroup s gid uid adderID = .error .userNotFound) ∧
    (∀ w c, isGroupMember s gid adderID = true →
      s.users.find? (fun u => u.id == uid) = some w →
      s.conversations.find? (fun cv => cv.groupId == some gid) = some c →
      (∀ s', addUserToGroup s gid uid adderID = .ok s' →
        isGroupMember s' gid uid = true ∧ isParticipant s' c.id uid = true) ∧
      exceptIsOk (addUserToGroup s gid uid adderID) = true ∧
      (isGroupMember s gid uid = true → isParticipant s c.id uid = true →
        addUserToGroup s gid uid adderID = .ok s)) := by
  refine ⟨?_, ?_, ?_⟩
  · intro h
    unfold addUserToGroup
    simp [h]
  · intro h1 h2
    have hnone : s.users.find? (fun u => u.id == uid) = none := by
      rw [List.find?_eq_none]
      intro u hu
      simp [h2 u hu]
    unfold addUserToGroup
    rw [h1, hnone]
    rfl
  · intro w c h1 hw hc
    unfold addUserToGroup
    rw [h1, hw, hc]
    simp only [Bool.not_true, Bool.false_eq_true, if_false]
    refine ⟨?_, rfl, ?_⟩
    · intro s' hs'
      by_cases hm : isGroupMember s gid uid
      · by_cases hp : isParticipant s c.id uid
        · simp [hm, hp] at hs'
          subst hs'
          exact ⟨hm, hp⟩
        · simp [hm, hp] at hs'
          subst hs'
          constructor
          · simpa [isGroupMember] using hm
          · simp [isParticipant, List.any_append]
      · have hp1 : isParticipant
            { s with groupMembers := s.groupMembers ++ [⟨gid, uid⟩] } c.id uid =
            isParticipant s c.id uid := rfl
        by_cases hp : isParticipant s c.id uid
        · simp [hm, hp1, hp] at hs'
          subst hs'
          constructor
          · simp [isGroupMember, List.any_append]
          · simpa [isParticipant] using hp
        · simp [hm, hp1, hp] at hs'
          subst hs'
          constructor
          · simp [isGroupMember, List.any_append]
          · simp [isParticipant, List.any_append]
    · intro hm hp
      simp [hm, hp]

/-- One group `g1` (conversation `cg`) whose sole member is `u1`, with
`u2` an existing user outside the group. -/
def groupDB : DBState :=
  { twoUsersDB with
    groups := [⟨"g1", "team", none⟩],
    groupMembers := [⟨"g1", "u1"⟩],
    conversations := [⟨"cg", true, some "g1"⟩],
    participants := [⟨"cg", "u1", none⟩] }

/-- C5 witness: on `groupDB`, adding the missing user `zz` yields
`NotFound`, and adding `u2` as ordered by member `u1` succeeds. -/
theorem addUserToGroup_error_order_and_noop_witness :
    addUserToGroup groupDB "g1" "zz" "u1" = .error .userNotFound ∧
    exceptIsOk (addUserToGroup groupDB "g1" "u2" "u1") = true :=
  ⟨(addUserToGroup_error_order_and_noop groupDB "g1" "zz" "u1").2.1 (by decide)
      (by decide),
    ((addUserToGroup_error_order_and_noop groupDB "g1" "u2" "u1").2.2
      ⟨"u2", "luigi", none⟩ ⟨"cg", true, some "g1"⟩ (by decide) (by decide)
      (by decide)).2.1⟩

/-! ## C7 — one reaction per user per message -/

/-- After a successful `AddComment`, the `(message, user)` pair holds
exactly the one fresh reaction row, and every other pair's rows are
untouched. -/
theorem addComment_pair_rows (s : DBState) (mid uid e : String) (s' : DBState)
    (h : addComment s mid uid e = .ok s') :
    s'.comments.filter (fun c => c.msgId == mid && c.userId == uid) =
      [⟨mid, uid, e⟩] ∧
    ∀ mid2 uid2, ¬(mid2 = mid ∧ uid2 = uid) →
      s'.comments.filter (fun c => c.msgId == mid2 && c.userId == uid2) =
        s.comments.filter (fun c => c.msgId == mid2 && c.userId == uid2) := by
  unfold addComment at h
  cases hget : getMessage s mid with
  | error e2 => rw [hget] at h; exact absurd h (by simp)
  | ok m =>
      rw [hget] at h
      simp only [Except.ok.injEq] at h
      subst h
      constructor
      · show (List.filter _ (_ ++ _)) = _
        rw [List.filter_append]
        have h1 : (s.comments.filter
            (fun c => !(c.msgId == mid && c.userId == uid))).filter
            (fun c => c.msgId == mid && c.userId == uid) = [] := by
          rw [List.filter_filter]
          rw [List.filter_eq_nil_iff]
          intro c _
          by_cases hc : (c.msgId == mid && c.userId == uid) = true <;> simp [hc]
        rw [h1]
        simp
      · intro mid2 uid2 hne
        show (List.filter _ (_ ++ _)) = _
        rw [List.filter_append]
        have hrow : ((mid == mid2) && (uid == uid2)) = false := by
          by_cases h2 : mid = mid2
          · have h3 : uid ≠ uid2 := fun h4 => hne ⟨h2.symm, h4.symm⟩
            simp [h3]
          · simp [h2]
        have h2 : (s.comments.filter
            (fun c => !(c.msgId == mid && c.userId == uid))).filter
            (fun c => c.msgId == mid2 && c.userId == uid2) =
            s.comments.filter (fun c => c.msgId == mid2 && c.userId == uid2) := by
          rw [List.filter_filter]
          apply List.filter_congr
          intro c _
          by_cases hm2 : c.msgId = mid2
          · by_cases hu2 : c.userId = uid2
            · have hnp : (c.msgId == mid && c.userId == uid) = false := by
                rw [hm2, hu2]
                by_cases h5 : mid2 = mid
                · subst h5
                  have h6 : uid2 ≠ uid := fun h7 => hne ⟨rfl, h7⟩
                  simp [h6]
                · simp [h5]
              simp [hm2, hu2, hnp]
              exact not_and_or.mp hne
            · simp [hu2]
          · simp [hm2]
        rw [h2]
        simp [hrow]

/-- C7: reacting is an upsert keyed on `(message, user)` — one success
leaves exactly one row for the pair; a second reaction from the same
user replaces it, leaving exactly one row carrying the most recent
emoticon; rows of every other `(message, user)` pair are untouched. -/
theorem addComment_one_reaction_per_pair (s : DBState) (mid uid e1 e2 : String) :
    ∀ s1, addComment s mid uid e1 = .ok s1 →
      (s1.comments.filter (fun c => c.msgId == mid && c.userId == uid) =
        [⟨mid, uid, e1⟩] ∧
       (∀ mid2 uid2, ¬(mid2 = mid ∧ uid2 = uid) →
         s1.comments.filter (fun c => c.msgId == mid2 && c.userId == uid2) =
           s.comments.filter (fun c => c.msgId == mid2 && c.userId == uid2)) ∧
       ∀ s2, addComment s1 mid uid e2 = .ok s2 →
         s2.comments.filter (fun c => c.msgId == mid && c.userId == uid) =
           [⟨mid, uid, e2⟩]) := by
  intro s1 h1
  rcases addComment_pair_rows s mid uid e1 s1 h1 with ⟨ha, hb⟩
  refine ⟨ha, hb, ?_⟩
  intro s2 h2
  exact (addComment_pair_rows s1 mid uid e2 s2 h2).1

/-- One message `m1` from `u1` in conversation `c1`, with `u1` a
participant. -/
def msgDB : DBState :=
  { emptyDB with
    users := [⟨"u1", "maria", none⟩],
    conversations := [⟨"c1", false, none⟩],
    participants := [⟨"c1", "u1", none⟩],
    messages := [⟨"m1", "c1", "u1", some "hi", none, 0, "received", none⟩] }

/-- C7 witness: reacting twice on `msgDB` leaves one row with the second
emoticon. -/
theorem addComment_one_reaction_per_pair_witness :
    ({ msgDB with comments := [⟨"m1", "u1", "wink"⟩] } : DBState).comments.filter
      (fun c => c.msgId == "m1" && c.userId == "u1") = [⟨"m1", "u1", "wink"⟩] :=
  (addComment_one_reaction_per_pair msgDB "m1" "u1" "grin" "wink"
    { msgDB with comments := [⟨"m1", "u1", "grin"⟩] } rfl).2.2
    { msgDB with comments := [⟨"m1", "u1", "wink"⟩] } rfl

/-! ## C4 — `DeleteMessage` and forwarding a deleted message -/

/-- `MarkConversationAsRead` preserves the list of message ids. -/
theorem markConversationAsRead_msgIds (s : DBState) (cid uid : String) (t : Nat)
    (s' : DBState) (h : markConversationAsRead s cid uid t = .ok s') :
    s'.messages.map MsgRow.id = s.messages.map MsgRow.id := by
  unfold markConversationAsRead at h
  injection h with h
  subst h
  show (s.messages.map _).map MsgRow.id = _
  rw [List.map_map]
  apply List.map_congr_left
  intro m _
  show MsgRow.id (if _ then _ else _) = _
  split <;> rfl

/-- The `GetConversation` gate preserves the list of message ids. -/
theorem getConversationStep_msgIds (s : DBState) (uid cid : String) (t : Nat)
    (s' : DBState) (h : getConversationStep s uid cid t = .ok s') :
    s'.messages.map MsgRow.id = s.messages.map MsgRow.id := by
  unfold getConversationStep at h
  split at h
  · exact Except.noConfusion h
  · split at h
    · exact Except.noConfusion h
    · split at h
      · split at h
        · exact Except.noConfusion h
        · split at h
          · rename_i s1 hmark
            injection h with h2
            subst h2
            exact markConversationAsRead_msgIds s cid uid t _ hmark
          · injection h with h2
            subst h2
            rfl
      · split at h
        · rename_i s1 hmark
          injection h with h2
          subst h2
          exact markConversationAsRead_msgIds s cid uid t _ hmark
        · injection h with h2
          subst h2
          rfl

/-- A state with no message named `mid` makes `GetMessage` fail. -/
theorem getMessage_absent (s : DBState) (mid : String)
    (h : ∀ m ∈ s.messages, m.id ≠ mid) :
    getMessage s mid = .error .messageNotFound := by
  have hnone : s.messages.find? (fun m => m.id == mid) = none := by
    rw [List.find?_eq_none]
    intro m hm
    simp [h m hm]
  unfold getMessage
  rw [hnone]

/-- C4: `DeleteMessage` fails `NotFound` when the message is absent and
`Forbidden` (`NotMessageOwner`) when the requester is not the sender —
the `Except` error models the rolled-back, unchanged state; on success
neither the message nor any comment on it survives, and a subsequent
`ForwardMessage` whose source-conversation gate passes fails with
`NotFound` on the deleted message. -/
theorem deleteMessage_spec (s : DBState) (mid uid : String) :
    ((∀ m ∈ s.messages, m.id ≠ mid) →
      deleteMessage s mid uid = .error .messageNotFound) ∧
    (∀ m, s.messages.find? (fun x => x.id == mid) = some m → m.senderId ≠ uid →
      deleteMessage s mid uid = .error .notMessageOwner) ∧
    (∀ m, s.messages.find? (fun x => x.id == mid) = some m → m.senderId = uid →
      ∀ s', deleteMessage s mid uid = .ok s' →
        (∀ m2 ∈ s'.messages, m2.id ≠ mid) ∧
        (∀ c ∈ s'.comments, c.msgId ≠ mid) ∧
        (∀ uid2 srcCid targetCid newId : String, ∀ t1 t2 t3 : Nat, ∀ s1,
          getConversationStep s' uid2 srcCid t1 = .ok s1 →
          forwardMessage s' uid2 srcCid mid targetCid newId t1 t2 t3 =
            .error .messageNotFound)) := by
  refine ⟨?_, ?_, ?_⟩
  · intro h
    have hnone : s.messages.find? (fun x => x.id == mid) = none := by
      rw [List.find?_eq_none]
      intro m hm
      simp [h m hm]
    unfold deleteMessage
    rw [hnone]
  · intro m hm hs
    unfold deleteMessage
    rw [hm]
    simp [hs]
  · intro m hm hs s' h
    unfold deleteMessage at h
    rw [hm] at h
    dsimp only at h
    rw [if_neg (by simp [hs])] at h
    injection h with h
    subst h
    refine ⟨?_, ?_, ?_⟩
    · intro m2 hm2
      have := (List.mem_filter.mp hm2).2
      simpa using this
    · intro c hc
      have := (List.mem_filter.mp hc).2
      simpa using this
    · intro uid2 srcCid targetCid newId t1 t2 t3 s1 hgate
      have hids := getConversationStep_msgIds _ uid2 srcCid t1 s1 hgate
      have habsent : ∀ m2 ∈ s1.messages, m2.id ≠ mid := by
        intro m2 hm2
        have hmem : m2.id ∈ s1.messages.map MsgRow.id :=
          List.mem_map_of_mem MsgRow.id hm2
        rw [hids] at hmem
        rcases List.mem_map.mp hmem with ⟨m3, hm3, hid3⟩
        have hne : m3.id ≠ mid := by
          have := (List.mem_filter.mp hm3).2
          simpa using this
        rw [← hid3]
        exact hne
      unfold forwardMessage
      rw [hgate]
      show (match getMessage s1 mid with
        | .error e => .error e
        | .ok orig =>
            match getConversationStep s1 uid2 targetCid t2 with
            | .error e => .error e
            | .ok s2 =>
                createMessage s2 targetCid uid2 (orig.content.getD "") orig.photo
                  none newId t3) = Except.error DBError.messageNotFound
      rw [getMessage_absent s1 mid habsent]

/-- `msgDB` with a reaction on the message, then the message deleted. -/
def msgDBdel : DBState :=
  { msgDB with comments := [⟨"m1", "u1", "grin"⟩] }

/-- The state after the sender deletes `m1` from `msgDBdel`. -/
def msgDBafterDel : DBState := { msgDBdel with messages := [], comments := [] }

/-- The state after the forward handler's source-conversation gate
(which marks the conversation read) runs on `msgDBafterDel`. -/
def msgDBafterGate : DBState :=
  { msgDBafterDel with participants := [⟨"c1", "u1", some 1⟩] }

/-- C4 witness: on `msgDBdel`, the sender deletes `m1`; forwarding it
afterwards through the passing conversation gate fails `NotFound`. -/
theorem deleteMessage_spec_witness :
    forwardMessage msgDBafterDel "u1" "c1" "m1" "c1" "m9" 1 2 3 =
      .error .messageNotFound :=
  ((deleteMessage_spec msgDBdel "m1" "u1").2.2
    ⟨"m1", "c1", "u1", some "hi", none, 0, "received", none⟩ rfl rfl
    msgDBafterDel rfl).2.2
    "u1" "c1" "c1" "m9" 1 2 3 msgDBafterGate rfl

/-! ## C8 — `MarkConversationAsRead` -/

/-- A status ranks strictly below `read` exactly when it is not the
string `"read"` (the code's test). -/
theorem statusRank_lt_two_iff (st : String) : statusRank st < 2 ↔ st ≠ "read" := by
  unfold statusRank
  by_cases h : st = "read"
  · simp [h]
  · have hb : (st == "read") = false := by simp [h]
    rw [hb]
    simp [h]
    split <;> omega

/-- C8: `MarkConversationAsRead` always succeeds, stamps
`lastReadTime = t` on exactly the `(conversation, user)` participant
rows, advances to `read` exactly the conversation's messages that were
not sent by `uid` and rank strictly below `read`, leaves every other
message (own messages, already-read messages, other conversations)
untouched, and touches no other table. -/
theorem markConversationAsRead_spec (s : DBState) (cid uid : String) (t : Nat) :
    exceptIsOk (markConversationAsRead s cid uid t) = true ∧
    (∀ s', markConversationAsRead s cid uid t = .ok s' →
      List.Forall₂ (fun m m' =>
        ((m.convId = cid ∧ m.senderId ≠ uid ∧ statusRank m.status < 2) →
          m' = { m with status := "read" }) ∧
        (¬(m.convId = cid ∧ m.senderId ≠ uid ∧ statusRank m.status < 2) →
          m' = m)) s.messages s'.messages ∧
      List.Forall₂ (fun p p' =>
        ((p.convId = cid ∧ p.userId = uid) →
          p' = { p with lastReadTime := some t }) ∧
        (¬(p.convId = cid ∧ p.userId = uid) → p' = p))
        s.participants s'.participants ∧
      s'.users = s.users ∧ s'.groups = s.groups ∧
      s'.groupMembers = s.groupMembers ∧
      s'.conversations = s.conversations ∧ s'.comments = s.comments) := by
  constructor
  · rfl
  · intro s' h
    unfold markConversationAsRead at h
    injection h with h
    subst h
    refine ⟨?_, ?_, rfl, rfl, rfl, rfl, rfl⟩
    · apply forall₂_map_self
      intro m _
      constructor
      · intro hc
        rcases hc with ⟨h1, h2, h3⟩
        have hb : (m.convId == cid && m.senderId != uid && m.status != "read") =
            true := by
          have h4 : m.status ≠ "read" := (statusRank_lt_two_iff m.status).mp h3
          simp [h1, h2, h4]
        rw [if_pos hb]
      · intro hc
        have hb : (m.convId == cid && m.senderId != uid && m.status != "read") =
            false := by
          by_cases h1 : m.convId = cid
          · by_cases h2 : m.senderId = uid
            · simp [h2]
            · have h3 : ¬ statusRank m.status < 2 := by
                intro h4
                exact hc ⟨h1, h2, h4⟩
              have h4 : m.status = "read" := by
                by_contra h5
                exact h3 ((statusRank_lt_two_iff m.status).mpr h5)
              simp [h4]
          · simp [h1]
        rw [hb]
        simp
    · apply forall₂_map_self
      intro p _
      constructor
      · intro hc
        rcases hc with ⟨h1, h2⟩
        have hb : (p.convId == cid && p.userId == uid) = true := by simp [h1, h2]
        rw [if_pos hb]
      · intro hc
        have hb : (p.convId == cid && p.userId == uid) = false := by
          by_cases h1 : p.convId = cid
          · by_cases h2 : p.userId = uid
            · exact absurd ⟨h1, h2⟩ hc
            · simp [h2]
          · simp [h1]
        rw [hb]
        simp

/-- C8 witness: applied to `msgDB` for reader `u2` (so the single
message from `u1` qualifies). -/
theorem markConversationAsRead_spec_witness :
    exceptIsOk (markConversationAsRead msgDB "c1" "u2" 7) = true :=
  (markConversationAsRead_spec msgDB "c1" "u2" 7).1

/-! ## C1 — message status monotonicity -/

/-- Every status ranks at most `read`. -/
theorem statusRank_le_two (st : String) : statusRank st ≤ 2 := by
  unfold statusRank
  split
  · omega
  · split <;> omega

/-- A read message, for the C1 counterexample. -/
def readMsgDB : DBState :=
  { msgDB with messages := [⟨"m1", "c1", "u1", some "hi", none, 0, "read", none⟩] }

/-- C1 counterexample: `UpdateMessageStatus` is a store-interface
operation, yet calling it with `"sent"` on a message whose status is
`"read"` succeeds and moves that status strictly backwards. -/
theorem updateMessageStatus_can_regress :
    readMsgDB.messages.map MsgRow.status = ["read"] ∧
    updateMessageStatus readMsgDB "m1" "sent" =
      .ok { readMsgDB with
        messages := [⟨"m1", "c1", "u1", some "hi", none, 0, "sent", none⟩] } ∧
    statusRank "sent" < statusRank "read" := ⟨rfl, rfl, by decide⟩

/-- On success, `CreateMessage` passed its primary-key check and the
resulting message table is the old one plus the fresh row, with exactly
the fresh row advanced to `received`. -/
theorem createMessage_ok_shape (s : DBState)
    (conversationID senderID content : String) (photo replyTo : Option String)
    (newId : String) (t : Nat) (r : MsgRow) (s' : DBState)
    (h : createMessage s conversationID senderID content photo replyTo newId t =
      .ok (r, s')) :
    s.messages.any (fun m => m.id == newId) = false ∧
    s'.messages = (s.messages ++
      [newMsgRow conversationID senderID content photo replyTo newId t]).map
      (advanceToReceived newId) := by
  unfold createMessage at h
  split at h
  · exact Except.noConfusion h
  · rename_i hfresh
    dsimp only at h
    split at h
    · exact Except.noConfusion h
    · injection h with h
      have hs : _ = s' := congrArg Prod.snd h
      subst hs
      rw [Bool.not_eq_true] at hfresh
      exact ⟨hfresh, rfl⟩

/-- C1 (amended): message status is monotone under the lifecycle
operations — `CreateMessage` leaves existing rows intact and lands the
fresh message at `received`, `MarkConversationAsRead` never lowers a
rank, `DeleteMessage` leaves every surviving row intact, and
`AddComment`/`RemoveComment` do not touch the messages table at all;
`UpdateMessageStatus`, however, overwrites the status with its argument
unconditionally and can move it backwards (see the counterexample). -/
theorem messageStatus_monotone_lifecycle :
    (∀ s conversationID senderID content photo replyTo newId t r s',
      createMessage s conversationID senderID content photo replyTo newId t =
        .ok (r, s') →
      (∀ m ∈ s.messages, m ∈ s'.messages) ∧
      (∀ m ∈ s'.messages, m ∈ s.messages ∨
        (m.id = newId ∧ m.status = "received"))) ∧
    (∀ s cid uid t s', markConversationAsRead s cid uid t = .ok s' →
      List.Forall₂ (fun m m' => m'.id = m.id ∧
        statusRank m.status ≤ statusRank m'.status) s.messages s'.messages) ∧
    (∀ s mid uid s', deleteMessage s mid uid = .ok s' →
      ∀ m ∈ s'.messages, m ∈ s.messages) ∧
    (∀ s mid uid emoticon s', addComment s mid uid emoticon = .ok s' →
      s'.messages = s.messages) ∧
    (∀ s mid uid s', removeComment s mid uid = .ok s' →
      s'.messages = s.messages) := by
  refine ⟨?_, ?_, ?_, ?_, ?_⟩
  · intro s conversationID senderID content photo replyTo newId t r s' h
    rcases createMessage_ok_shape s conversationID senderID content photo replyTo
      newId t r s' h with ⟨hfresh, hmsgs⟩
    have hfr : ∀ m ∈ s.messages, (m.id == newId) = false := by
      intro m hm
      have := List.any_eq_false.mp hfresh m hm
      simpa using this
    constructor
    · intro m hm
      have hgm : advanceToReceived newId m = m := by
        unfold advanceToReceived
        simp [hfr m hm]
      rw [hmsgs, List.map_append]
      apply List.mem_append_left
      have hmem := List.mem_map_of_mem (advanceToReceived newId) hm
      rwa [hgm] at hmem
    · intro m hm
      rw [hmsgs] at hm
      rcases List.mem_map.mp hm with ⟨m0, hm0, hmap⟩
      rcases List.mem_append.mp hm0 with hold | hnew
      · left
        have hgm : advanceToReceived newId m0 = m0 := by
          unfold advanceToReceived
          simp [hfr m0 hold]
        rw [hgm] at hmap
        rw [← hmap]
        exact hold
      · right
        have hm0r : m0 = newMsgRow conversationID senderID content photo
            replyTo newId t := List.mem_singleton.mp hnew
        subst hm0r
        rw [← hmap]
        unfold advanceToReceived newMsgRow
        simp
  · intro s cid uid t s' h
    unfold markConversationAsRead at h
    injection h with h
    subst h
    apply forall₂_map_self
    intro m _
    constructor
    · show MsgRow.id (if _ then _ else _) = _
      split <;> rfl
    · show statusRank m.status ≤ statusRank (MsgRow.status (if _ then _ else _))
      split
      · show statusRank m.status ≤ statusRank "read"
        have h2 : statusRank "read" = 2 := by decide
        rw [h2]
        exact statusRank_le_two m.status
      · exact Nat.le_refl _
  · intro s mid uid s' h
    unfold deleteMessage at h
    split at h
    · exact Except.noConfusion h
    · split at h
      · exact Except.noConfusion h
      · injection h with h
        subst h
        intro m hm
        exact (List.mem_filter.mp hm).1
  · intro s mid uid emoticon s' h
    unfold addComment at h
    split at h
    · exact Except.noConfusion h
    · injection h with h
      subst h
      rfl
  · intro s mid uid s' h
    unfold removeComment at h
    split at h
    · injection h with h
      subst h
      rfl
    · exact Except.noConfusion h

/-- C1 witness: the `AddComment` conjunct applied concretely — reacting
on `msgDB` leaves the messages table untouched. -/
theorem messageStatus_monotone_lifecycle_witness :
    ({ msgDB with comments := [⟨"m1", "u1", "grin"⟩] } : DBState).messages =
      msgDB.messages :=
  messageStatus_monotone_lifecycle.2.2.2.1 msgDB "m1" "u1" "grin" _ rfl

/-! ## C2 / C9 — direct-conversation lookup machinery -/

/-- Soundness of the lookup: a found conversation is non-group and
contains both users. -/
theorem findDirect_sound (s : DBState) (a b c : String)
    (h : findDirectConversation s a b = some c) : directBoth s c a b := by
  unfold findDirectConversation at h
  cases hf : s.participants.find? (fun p =>
      p.userId == a && isParticipant s p.convId b && convIsDirect s p.convId) with
  | none => rw [hf] at h; exact Option.noConfusion h
  | some p =>
      rw [hf] at h
      simp only [Option.map_some'] at h
      have hpred := List.find?_some hf
      have hpmem := List.mem_of_find?_eq_some hf
      simp only [Bool.and_eq_true] at hpred
      rcases hpred with ⟨⟨ha, hb⟩, hd⟩
      have hua : p.userId = a := by simpa using ha
      injection h with h
      subst h
      refine ⟨hd, ?_, hb⟩
      unfold isParticipant
      rw [List.any_eq_true]
      exact ⟨p, hpmem, by simp [hua]⟩

/-- Completeness of the lookup: when some non-group conversation
contains both users the query finds one. -/
theorem findDirect_isSome (s : DBState) (a b c : String) (h : directBoth s c a b) :
    (findDirectConversation s a b).isSome = true := by
  rcases h with ⟨hd, hpa, hpb⟩
  unfold isParticipant at hpa
  rcases List.any_eq_true.mp hpa with ⟨p, hp, hpred⟩
  simp only [Bool.and_eq_true] at hpred
  have hc : p.convId = c := by simpa using hpred.1
  have ha : p.userId = a := by simpa using hpred.2
  unfold findDirectConversation
  rw [Option.isSome_map']
  rw [List.find?_isSome]
  refine ⟨p, hp, ?_⟩
  rw [ha, hc]
  simp [hpb, hd]

/-- `directBoth` is symmetric in the two users. -/
theorem directBoth_comm (s : DBState) (c a b : String) (h : directBoth s c a b) :
    directBoth s c b a := ⟨h.1, h.2.2, h.2.1⟩

/-- `atMostOneDirectPair` is symmetric in the two users. -/
theorem atMostOneDirectPair_comm (s : DBState) (a b : String)
    (h : atMostOneDirectPair s a b) : atMostOneDirectPair s b a :=
  fun c1 c2 h1 h2 =>
    h c1 c2 (directBoth_comm s c1 b a h1) (directBoth_comm s c2 b a h2)

/-- When the pair already shares a unique direct conversation, the call
returns it and leaves the state untouched. -/
theorem getOrCreate_existing (s : DBState) (a b id c : String)
    (hu : atMostOneDirectPair s a b) (h : directBoth s c a b) :
    getOrCreateDirectConversation s a b id = .ok (c, s) := by
  have hsome := findDirect_isSome s a b c h
  rcases Option.isSome_iff_exists.mp hsome with ⟨c', hc'⟩
  have h2 := findDirect_sound s a b c' hc'
  have he : c' = c := hu c' c h2 h
  subst he
  unfold getOrCreateDirectConversation
  rw [hc']

/-- The state produced by the creation branch of
`GetOrCreateDirectConversation`: the fresh non-group conversation plus
its two participant rows. -/
def createdDirectState (s : DBState) (a b newId : String) : DBState :=
  { s with
    conversations := s.conversations ++ [⟨newId, false, none⟩],
    participants := (s.participants ++ [⟨newId, a, none⟩]) ++ [⟨newId, b, none⟩] }

/-- With no existing conversation for the pair, distinct users and a
fresh id, the creation branch commits and returns the fresh id. -/
theorem getOrCreate_creates (s : DBState) (a b newId : String)
    (hfind : findDirectConversation s a b = none)
    (hf : freshConvId s newId) (hab : a ≠ b) :
    getOrCreateDirectConversation s a b newId =
      .ok (newId, createdDirectState s a b newId) := by
  unfold getOrCreateDirectConversation
  rw [hfind]
  dsimp only
  have hconv : (s.conversations.any (fun c => c.id == newId)) = false := by
    rw [← Bool.not_eq_true, List.any_eq_true]
    rintro ⟨c, hc, hcid⟩
    exact hf.1 c hc (by simpa using hcid)
  rw [hconv]
  simp only [Bool.false_eq_true, if_false]
  have hpa : (s.participants.any
      (fun p => p.convId == newId && p.userId == a)) = false := by
    rw [← Bool.not_eq_true, List.any_eq_true]
    rintro ⟨p, hp, hpred⟩
    simp only [Bool.and_eq_true] at hpred
    exact hf.2 p hp (by simpa using hpred.1)
  rw [hpa]
  simp only [Bool.false_eq_true, if_false]
  have hpb : ((s.participants ++ [⟨newId, a, none⟩] : List ParticipantRow).any
      (fun p => p.convId == newId && p.userId == b)) = false := by
    rw [List.any_append]
    have h1 : (s.participants.any
        (fun p => p.convId == newId && p.userId == b)) = false := by
      rw [← Bool.not_eq_true, List.any_eq_true]
      rintro ⟨p, hp, hpred⟩
      simp only [Bool.and_eq_true] at hpred
      exact hf.2 p hp (by simpa using hpred.1)
    rw [h1]
    simp [hab]
  rw [hpb]
  simp only [Bool.false_eq_true, if_false]
  rfl

/-- The fresh conversation is direct and contains both users. -/
theorem createdDirectState_directBoth (s : DBState) (a b newId : String) :
    directBoth (createdDirectState s a b newId) newId a b := by
  refine ⟨?_, ?_, ?_⟩
  · unfold convIsDirect createdDirectState
    simp [List.any_append]
  · unfold isParticipant createdDirectState
    simp [List.any_append]
  · unfold isParticipant createdDirectState
    simp [List.any_append]

/-- Conversations other than the fresh one keep their `directBoth`
status when read back in the original state. -/
theorem directBoth_shrink (s : DBState) (a0 b0 newId c x y : String)
    (hcne : c ≠ newId)
    (h : directBoth (createdDirectState s a0 b0 newId) c x y) :
    directBoth s c x y := by
  rcases h with ⟨hd, hx, hy⟩
  have hidc : (newId == c) = false := by
    simp
    exact fun h2 => hcne h2.symm
  refine ⟨?_, ?_, ?_⟩
  · unfold convIsDirect createdDirectState at hd
    rw [List.any_append] at hd
    simp only [Bool.or_eq_true] at hd
    rcases hd with h2 | h2
    · exact h2
    · simp [hidc] at h2
  · unfold isParticipant createdDirectState at hx
    rw [List.any_append, List.any_append] at hx
    simp only [Bool.or_eq_true] at hx
    rcases hx with (h3 | h3) | h3
    · exact h3
    · simp [hidc] at h3
    · simp [hidc] at h3
  · unfold isParticipant createdDirectState at hy
    rw [List.any_append, List.any_append] at hy
    simp only [Bool.or_eq_true] at hy
    rcases hy with (h3 | h3) | h3
    · exact h3
    · simp [hidc] at h3
    · simp [hidc] at h3

/-- C2: for distinct users whose pair has at most one direct
conversation, once `GetOrCreateDirectConversation (a, b)` has returned a
conversation id, calling again — in either argument order, with any
fresh id — returns the same id and leaves the state untouched: no second
conversation is ever created for the unordered pair. -/
theorem getOrCreateDirect_idempotent_symmetric (s : DBState)
    (a b id1 id2 cid : String) (s' : DBState) (hab : a ≠ b)
    (hu : atMostOneDirectPair s a b) (hf : freshConvId s id1)
    (h1 : getOrCreateDirectConversation s a b id1 = .ok (cid, s')) :
    getOrCreateDirectConversation s' b a id2 = .ok (cid, s') ∧
    getOrCreateDirectConversation s' a b id2 = .ok (cid, s') := by
  cases hfind : findDirectConversation s a b with
  | some c =>
      have hd := findDirect_sound s a b c hfind
      unfold getOrCreateDirectConversation at h1
      rw [hfind] at h1
      injection h1 with h1
      have hc : c = cid := congrArg Prod.fst h1
      have hs : s = s' := congrArg Prod.snd h1
      subst hc
      subst hs
      exact ⟨getOrCreate_existing s b a id2 c (atMostOneDirectPair_comm s a b hu)
          (directBoth_comm s c a b hd),
        getOrCreate_existing s a b id2 c hu hd⟩
  | none =>
      have hcr := getOrCreate_creates s a b id1 hfind hf hab
      rw [hcr] at h1
      injection h1 with h1
      have hc : id1 = cid := congrArg Prod.fst h1
      have hs : createdDirectState s a b id1 = s' := congrArg Prod.snd h1
      subst hc
      subst hs
      have hd : directBoth (createdDirectState s a b id1) id1 a b :=
        createdDirectState_directBoth s a b id1
      have key : ∀ c3, directBoth (createdDirectState s a b id1) c3 a b →
          c3 = id1 := by
        intro c3 hd3
        by_contra hne
        have hd4 := directBoth_shrink s a b id1 c3 a b hne hd3
        have h5 := findDirect_isSome s a b c3 hd4
        rw [hfind] at h5
        exact absurd h5 (by simp)
      have hu' : atMostOneDirectPair (createdDirectState s a b id1) a b := by
        intro c1 c2 hd1 hd2
        rw [key c1 hd1, key c2 hd2]
      exact ⟨getOrCreate_existing _ b a id2 id1
          (atMostOneDirectPair_comm _ a b hu') (directBoth_comm _ id1 a b hd),
        getOrCreate_existing _ a b id2 id1 hu' hd⟩

/-- C2 witness: on `twoUsersDB`, the first call creates `c1`; the call
with the arguments swapped returns the same id without change. -/
theorem getOrCreateDirect_idempotent_symmetric_witness :
    getOrCreateDirectConversation (createdDirectState twoUsersDB "u1" "u2" "c1")
      "u2" "u1" "c2" =
      .ok ("c1", createdDirectState twoUsersDB "u1" "u2" "c1") :=
  (getOrCreateDirect_idempotent_symmetric twoUsersDB "u1" "u2" "c1" "c2" "c1"
    (createdDirectState twoUsersDB "u1" "u2" "c1") (by decide)
    (fun c1 c2 h _ => absurd h.2.1 (by simp [isParticipant, twoUsersDB, emptyDB]))
    (by constructor <;> intro x hx <;> simp [twoUsersDB, emptyDB] at hx)
    rfl).1

/-! ## C9 — `GetOrCreateDirectConversation` with equal arguments -/

/-- C9: called with `a = a`, the lookup's self-join matches any direct
conversation `a` participates in (the two join legs may be the same
row), so (i) when such a conversation exists the call returns one of
them unchanged — not a dedicated self-conversation; (ii) when none
exists, the creation path hits a primary-key violation trying to insert
the `(conversation, a)` participant row twice, so the transaction aborts
with an error and (the `Except` model of rollback) no row survives;
(iii) the lookup succeeds exactly when `a` participates in some
non-group conversation. -/
theorem getOrCreateDirect_self (s : DBState) :
    (∀ a id c, findDirectConversation s a a = some c →
      getOrCreateDirectConversation s a a id = .ok (c, s) ∧
      convIsDirect s c = true ∧ isParticipant s c a = true) ∧
    (∀ a id, findDirectConversation s a a = none →
      getOrCreateDirectConversation s a a id = .error .sqlConstraint) ∧
    (∀ a, (findDirectConversation s a a).isSome = true ↔
      s.participants.any (fun p => p.userId == a && convIsDirect s p.convId) =
        true) := by
  refine ⟨?_, ?_, ?_⟩
  · intro a id c h
    have hd := findDirect_sound s a a c h
    refine ⟨?_, hd.1, hd.2.1⟩
    unfold getOrCreateDirectConversation
    rw [h]
  · intro a id hfind
    unfold getOrCreateDirectConversation
    rw [hfind]
    dsimp only
    by_cases hc : (s.conversations.any (fun c => c.id == id)) = true
    · rw [if_pos hc]
    · rw [if_neg hc]
      by_cases hp : (s.participants.any
          (fun p => p.convId == id && p.userId == a)) = true
      · rw [if_pos hp]
      · rw [if_neg hp]
        have hthird : ((s.participants ++ [⟨id, a, none⟩] : List ParticipantRow).any
            (fun p => p.convId == id && p.userId == a)) = true := by
          rw [List.any_append]
          simp
        rw [if_pos hthird]
  · intro a
    constructor
    · intro h
      unfold findDirectConversation at h
      rw [Option.isSome_map'] at h
      rcases List.find?_isSome.mp h with ⟨p, hp, hpred⟩
      simp only [Bool.and_eq_true] at hpred
      rw [List.any_eq_true]
      exact ⟨p, hp, by simp [hpred.1.1, hpred.2]⟩
    · intro h
      rcases List.any_eq_true.mp h with ⟨p, hp, hpred⟩
      simp only [Bool.and_eq_true] at hpred
      have ha : p.userId = a := by simpa using hpred.1
      have hpart : isParticipant s p.convId a = true := by
        unfold isParticipant
        rw [List.any_eq_true]
        exact ⟨p, hp, by simp [ha]⟩
      unfold findDirectConversation
      rw [Option.isSome_map']
      rw [List.find?_isSome]
      exact ⟨p, hp, by simp [ha, hpart, hpred.2]⟩

/-- C9 witness: with an existing `u1`–`u2` direct conversation the
self-call returns it unchanged; on the conversation-free `twoUsersDB`
it aborts with the participant primary-key violation. -/
theorem getOrCreateDirect_self_witness :
    getOrCreateDirectConversation (createdDirectState twoUsersDB "u1" "u2" "c1")
      "u1" "u1" "c9" = .ok ("c1", createdDirectState twoUsersDB "u1" "u2" "c1") ∧
    getOrCreateDirectConversation twoUsersDB "u1" "u1" "c9" =
      .error .sqlConstraint :=
  ⟨((getOrCreateDirect_self (createdDirectState twoUsersDB "u1" "u2" "c1")).1
      "u1" "c9" "c1" rfl).1,
    (getOrCreateDirect_self twoUsersDB).2.1 "u1" "c9" rfl⟩

/-! ## C3 — group members and conversation participants in lock-step -/

/-- `any` respects pointwise-equal predicates. -/
theorem any_congr (l : List α) (p q : α → Bool) (h : ∀ x ∈ l, p x = q x) :
    l.any p = l.any q := by
  induction l with
  | nil => rfl
  | cons x xs ih =>
      simp only [List.any_cons]
      rw [h x (List.mem_cons_self x xs),
        ih (fun y hy => h y (List.mem_cons_of_mem x hy))]

/-- `gid`'s unique paired conversation is `cid`: used to carry the
`SELECT id FROM conversations WHERE group_id = ?` link through
membership updates. -/
def groupConvLinked (s : DBState) (gid cid : String) : Prop :=
  ∀ c ∈ s.conversations,
    (c.groupId = some gid → c.id = cid) ∧ (c.id = cid → c.groupId = some gid)

/-- A sane pairing plus a found paired conversation yields the link. -/
theorem linked_of_pairingSane (s : DBState) (gid : String) (c : ConvRow)
    (hp : pairingSane s) (hcmem : c ∈ s.conversations)
    (hcg : c.groupId = some gid) : groupConvLinked s gid c.id := by
  intro c' hc'
  constructor
  · intro h2
    have h3 := hp.2 c' hc' c hcmem gid h2 hcg
    rw [h3]
  · intro h2
    have h3 := hp.1 c' hc' c hcmem h2
    rw [h3]
    exact hcg

/-- Deleting the `(gid, uid)` membership row does not change lookups of
any other `(group, user)` pair. -/
theorem members_any_after_del (l : List GroupMemberRow) (gid uid g' u : String)
    (h : ¬(g' = gid ∧ u = uid)) :
    ((l.filter (fun m => !(m.groupId == gid && m.userId == uid))).any
      (fun m => m.groupId == g' && m.userId == u)) =
    (l.any (fun m => m.groupId == g' && m.userId == u)) := by
  rw [any_filter_eq]
  apply any_congr
  intro m _
  by_cases h1 : (m.groupId == g' && m.userId == u) = true
  · simp only [Bool.and_eq_true] at h1
    have hg : m.groupId = g' := by simpa using h1.1
    have hu2 : m.userId = u := by simpa using h1.2
    have hdel : (m.groupId == gid && m.userId == uid) = false := by
      rw [hg, hu2]
      by_cases h2 : g' = gid
      · have h3 : u ≠ uid := fun h4 => h ⟨h2, h4⟩
        simp [h3]
      · simp [h2]
    rw [hdel]
    simp
  · have h1f : (m.groupId == g' && m.userId == u) = false := eq_false_of_ne_true h1
    rw [h1f]
    simp

/-- After deleting the `(gid, uid)` membership row, the pair itself is
gone. -/
theorem members_any_after_del_self (l : List GroupMemberRow) (gid uid : String) :
    ((l.filter (fun m => !(m.groupId == gid && m.userId == uid))).any
      (fun m => m.groupId == gid && m.userId == uid)) = false := by
  rw [any_filter_eq]
  rw [← Bool.not_eq_true, List.any_eq_true]
  rintro ⟨m, hm, hpred⟩
  simp at hpred
  rcases hpred with ⟨h1 | h1, h2, h3⟩
  · exact h1 h2
  · exact h1 h3

/-- Participant analogue of `members_any_after_del`. -/
theorem participants_any_after_del (l : List ParticipantRow)
    (cid uid c' u : String) (h : ¬(c' = cid ∧ u = uid)) :
    ((l.filter (fun p => !(p.convId == cid && p.userId == uid))).any
      (fun p => p.convId == c' && p.userId == u)) =
    (l.any (fun p => p.convId == c' && p.userId == u)) := by
  rw [any_filter_eq]
  apply any_congr
  intro p _
  by_cases h1 : (p.convId == c' && p.userId == u) = true
  · simp only [Bool.and_eq_true] at h1
    have hg : p.convId = c' := by simpa using h1.1
    have hu2 : p.userId = u := by simpa using h1.2
    have hdel : (p.convId == cid && p.userId == uid) = false := by
      rw [hg, hu2]
      by_cases h2 : c' = cid
      · have h3 : u ≠ uid := fun h4 => h ⟨h2, h4⟩
        simp [h3]
      · simp [h2]
    rw [hdel]
    simp
  · have h1f : (p.convId == c' && p.userId == u) = false := eq_false_of_ne_true h1
    rw [h1f]
    simp

/-- Participant analogue of `members_any_after_del_self`. -/
theorem participants_any_after_del_self (l : List ParticipantRow)
    (cid uid : String) :
    ((l.filter (fun p => !(p.convId == cid && p.userId == uid))).any
      (fun p => p.convId == cid && p.userId == uid)) = false := by
  rw [any_filter_eq]
  rw [← Bool.not_eq_true, List.any_eq_true]
  rintro ⟨p, hp, hpred⟩
  simp at hpred
  rcases hpred with ⟨h1 | h1, h2, h3⟩
  · exact h1 h2
  · exact h1 h3

/-- Inserting a user into both membership relations of a linked
group/conversation pair preserves the lock-step invariant. -/
theorem synced_after_pair_insert (s : DBState) (gid cid uid : String)
    (hs : groupSynced s) (hlink : groupConvLinked s gid cid) :
    groupSynced { s with
      groupMembers := s.groupMembers ++ [⟨gid, uid⟩],
      participants := s.participants ++ [⟨cid, uid, none⟩] } := by
  intro c' hc' g' hg' u
  unfold isGroupMember isParticipant
  dsimp only
  rw [List.any_append, List.any_append]
  simp only [List.any_cons, List.any_nil, Bool.or_false]
  have hbase : (s.groupMembers.any (fun m => m.groupId == g' && m.userId == u)) =
      (s.participants.any (fun p => p.convId == c'.id && p.userId == u)) :=
    hs c' hc' g' hg' u
  rw [hbase]
  have hX : ((gid == g') = (cid == c'.id)) := by
    by_cases h2 : g' = gid
    · subst h2
      have h3 : c'.id = cid := (hlink c' hc').1 hg'
      rw [h3]
      simp
    · have h3 : (gid == g') = false := by
        simp
        exact fun h4 => h2 h4.symm
      have h4 : (cid == c'.id) = false := by
        simp
        intro h5
        have h6 := (hlink c' hc').2 h5.symm
        rw [hg'] at h6
        exact h2 (Option.some.inj h6)
      rw [h3, h4]
  rw [hX]

/-- Deleting a user from both membership relations of a linked
group/conversation pair preserves the lock-step invariant. -/
theorem synced_after_pair_delete (s : DBState) (gid cid uid : String)
    (hs : groupSynced s) (hlink : groupConvLinked s gid cid) :
    groupSynced { s with
      groupMembers := s.groupMembers.filter
        (fun m => !(m.groupId == gid && m.userId == uid)),
      participants := s.participants.filter
        (fun p => !(p.convId == cid && p.userId == uid)) } := by
  intro c' hc' g' hg' u
  unfold isGroupMember isParticipant
  dsimp only
  by_cases hpair : g' = gid ∧ u = uid
  · rcases hpair with ⟨h1, h2⟩
    subst h1
    subst h2
    have hcid : c'.id = cid := (hlink c' hc').1 hg'
    rw [hcid]
    rw [members_any_after_del_self, participants_any_after_del_self]
  · have hcne : ¬(c'.id = cid ∧ u = uid) := by
      rintro ⟨h1, h2⟩
      apply hpair
      have h6 := (hlink c' hc').2 h1
      rw [hg'] at h6
      exact ⟨Option.some.inj h6, h2⟩
    rw [members_any_after_del _ gid uid g' u hpair,
      participants_any_after_del _ cid uid c'.id u hcne]
    exact hs c' hc' g' hg' u

/-- `AddUserToGroup` preserves the lock-step invariant. -/
theorem addUserToGroup_synced (s : DBState) (gid uid adder : String)
    (s' : DBState) (hs : groupSynced s) (hp : pairingSane s)
    (h : addUserToGroup s gid uid adder = .ok s') : groupSynced s' := by
  unfold addUserToGroup at h
  split at h
  · exact Except.noConfusion h
  · split at h
    · exact Except.noConfusion h
    · split at h
      · exact Except.noConfusion h
      · rename_i c hcfind
        injection h with h
        subst h
        have hcg : c.groupId = some gid := by
          simpa using List.find?_some hcfind
        have hcmem := List.mem_of_find?_eq_some hcfind
        have hlink := linked_of_pairingSane s gid c hp hcmem hcg
        by_cases hm : isGroupMember s gid uid = true
        · have hpart : isParticipant s c.id uid = true := by
            rw [← hs c hcmem gid hcg uid]
            exact hm
          simp only [hm, if_true, hpart]
          exact hs
        · have hmf : isGroupMember s gid uid = false := eq_false_of_ne_true hm
          have hpartf : isParticipant s c.id uid = false := by
            rw [← hs c hcmem gid hcg uid]
            exact hmf
          have hpartf2 : isParticipant
              { s with groupMembers := s.groupMembers ++ [⟨gid, uid⟩] }
              c.id uid = false := hpartf
          simp only [hmf, Bool.false_eq_true, if_false, hpartf2]
          exact synced_after_pair_insert s gid c.id uid hs hlink

/-- `RemoveUserFromGroup` preserves the lock-step invariant. -/
theorem removeUserFromGroup_synced (s : DBState) (gid uid : String)
    (s' : DBState) (hs : groupSynced s) (hp : pairingSane s)
    (h : removeUserFromGroup s gid uid = .ok s') : groupSynced s' := by
  unfold removeUserFromGroup at h
  split at h
  · exact Except.noConfusion h
  · split at h
    · exact Except.noConfusion h
    · rename_i c hcfind
      injection h with h
      subst h
      have hcg : c.groupId = some gid := by
        simpa using List.find?_some hcfind
      have hcmem := List.mem_of_find?_eq_some hcfind
      have hlink := linked_of_pairingSane s gid c hp hcmem hcg
      exact synced_after_pair_delete s gid c.id uid hs hlink

/-- The transaction prefix of `CreateGroup` (group row, paired
conversation, creator in both relations) is synced and linked, given
fresh identifiers. -/
theorem createGroupBase_inv (s : DBState) (name creator gid cid : String)
    (hs : groupSynced s) (hg : freshGroupId s gid) (hc : freshConvId s cid) :
    groupSynced { s with
      groups := s.groups ++ [⟨gid, name, none⟩],
      conversations := s.conversations ++ [⟨cid, true, some gid⟩],
      groupMembers := s.groupMembers ++ [⟨gid, creator⟩],
      participants := s.participants ++ [⟨cid, creator, none⟩] } ∧
    groupConvLinked { s with
      groups := s.groups ++ [⟨gid, name, none⟩],
      conversations := s.conversations ++ [⟨cid, true, some gid⟩],
      groupMembers := s.groupMembers ++ [⟨gid, creator⟩],
      participants := s.participants ++ [⟨cid, creator, none⟩] } gid cid := by
  constructor
  · intro c' hc' g' hg' u
    rcases List.mem_append.mp hc' with hold | hnew
    · unfold isGroupMember isParticipant
      dsimp only
      rw [List.any_append, List.any_append]
      simp only [List.any_cons, List.any_nil, Bool.or_false]
      have hgne : gid ≠ g' := by
        intro he
        apply hg.2.1 c' hold
        rw [he]
        exact hg'
      have hcidne : cid ≠ c'.id := by
        intro he
        exact hc.1 c' hold he.symm
      have h5 : (gid == g') = false := by simpa using hgne
      have h6 : (cid == c'.id) = false := by simpa using hcidne
      rw [h5, h6]
      simp only [Bool.false_and, Bool.or_false]
      exact hs c' hold g' hg' u
    · have he : c' = ⟨cid, true, some gid⟩ := List.mem_singleton.mp hnew
      subst he
      have hge : gid = g' := Option.some.inj hg'
      subst hge
      unfold isGroupMember isParticipant
      dsimp only
      rw [List.any_append, List.any_append]
      simp only [List.any_cons, List.any_nil, Bool.or_false]
      have h5 : (s.groupMembers.any
          (fun m => m.groupId == gid && m.userId == u)) = false := by
        rw [← Bool.not_eq_true, List.any_eq_true]
        rintro ⟨m, hm, hpred⟩
        simp only [Bool.and_eq_true] at hpred
        exact hg.2.2 m hm (by simpa using hpred.1)
      have h6 : (s.participants.any
          (fun p => p.convId == cid && p.userId == u)) = false := by
        rw [← Bool.not_eq_true, List.any_eq_true]
        rintro ⟨p, hp, hpred⟩
        simp only [Bool.and_eq_true] at hpred
        exact hc.2 p hp (by simpa using hpred.1)
      rw [h5, h6]
      simp
  · intro c' hc'
    rcases List.mem_append.mp hc' with hold | hnew
    · exact ⟨fun h2 => absurd h2 (hg.2.1 c' hold),
        fun h2 => absurd h2 (hc.1 c' hold)⟩
    · have he : c' = ⟨cid, true, some gid⟩ := List.mem_singleton.mp hnew
      subst he
      exact ⟨fun _ => rfl, fun _ => rfl⟩

/-- One member-loop turn preserves sync and the pair link. -/
theorem addGroupMemberPair_inv (gid cid creator uid : String) (s sx : DBState)
    (hinv : groupSynced s ∧ groupConvLinked s gid cid)
    (h : addGroupMemberPair gid cid creator (.ok s) uid = .ok sx) :
    groupSynced sx ∧ groupConvLinked sx gid cid := by
  unfold addGroupMemberPair at h
  dsimp only at h
  split at h
  · injection h with h
    subst h
    exact hinv
  · split at h
    · exact Except.noConfusion h
    · split at h
      · exact Except.noConfusion h
      · injection h with h
        subst h
        refine ⟨?_, ?_⟩
        · exact synced_after_pair_insert s gid cid uid hinv.1 hinv.2
        · intro c' hc'
          exact hinv.2 c' hc'

/-- The member loop started from a failed step stays failed. -/
theorem foldl_addGroupMemberPair_error (gid cid creator : String)
    (l : List String) (e : DBError) :
    l.foldl (addGroupMemberPair gid cid creator) (.error e) = .error e := by
  induction l with
  | nil => rfl
  | cons x xs ih =>
      rw [List.foldl_cons]
      have h1 : addGroupMemberPair gid cid creator (.error e) x = .error e := rfl
      rw [h1, ih]

/-- The whole member loop preserves sync and the pair link. -/
theorem foldl_addGroupMemberPair_inv (gid cid creator : String)
    (l : List String) :
    ∀ s s5, (groupSynced s ∧ groupConvLinked s gid cid) →
      l.foldl (addGroupMemberPair gid cid creator) (.ok s) = .ok s5 →
      groupSynced s5 ∧ groupConvLinked s5 gid cid := by
  induction l with
  | nil =>
      intro s s5 hinv h
      rw [List.foldl_nil] at h
      injection h with h
      subst h
      exact hinv
  | cons x xs ih =>
      intro s s5 hinv h
      rw [List.foldl_cons] at h
      cases hstep : addGroupMemberPair gid cid creator (.ok s) x with
      | error e =>
          rw [hstep] at h
          rw [foldl_addGroupMemberPair_error] at h
          exact Except.noConfusion h
      | ok sx =>
          rw [hstep] at h
          exact ih sx s5 (addGroupMemberPair_inv gid cid creator x s sx hinv hstep) h

/-- `CreateGroup` establishes the lock-step invariant for the fresh
group and preserves it for everything else. -/
theorem createGroup_synced (s : DBState) (name creator : String)
    (memberIDs : List String) (gid cid gidOut : String) (s' : DBState)
    (hs : groupSynced s) (hg : freshGroupId s gid) (hc : freshConvId s cid)
    (h : createGroup s name creator memberIDs gid cid = .ok (gidOut, s')) :
    groupSynced s' := by
  unfold createGroup at h
  split at h
  · exact Except.noConfusion h
  · dsimp only at h
    split at h
    · exact Except.noConfusion h
    · split at h
      · exact Except.noConfusion h
      · split at h
        · exact Except.noConfusion h
        · split at h
          · exact Except.noConfusion h
          · rename_i s5 hfold
            injection h with h
            have hs5 : s5 = s' := congrArg Prod.snd h
            subst hs5
            have hbase := createGroupBase_inv s name creator gid cid hs hg hc
            exact (foldl_addGroupMemberPair_inv gid cid creator memberIDs _ _
              ⟨hbase.1, hbase.2⟩ hfold).1

/-- `groupDB` satisfies the lock-step invariant. -/
theorem groupDB_synced : groupSynced groupDB := by
  intro c hc g hg u
  simp only [groupDB, twoUsersDB, emptyDB, List.mem_singleton] at hc
  subst hc
  have hgg : g = "g1" := (Option.some.inj hg).symm
  subst hgg
  unfold isGroupMember isParticipant
  simp [groupDB, twoUsersDB, emptyDB]

/-- `groupDB` has a sane group/conversation pairing. -/
theorem groupDB_pairingSane : pairingSane groupDB := by
  constructor
  · intro c1 h1 c2 h2 _
    simp only [groupDB, twoUsersDB, emptyDB, List.mem_singleton] at h1 h2
    rw [h1, h2]
  · intro c1 h1 c2 h2 g _ _
    simp only [groupDB, twoUsersDB, emptyDB, List.mem_singleton] at h1 h2
    rw [h1, h2]

/-- C3: for every conversation paired with a group, the set of group
members equals the set of conversation participants, and each of
`CreateGroup` (under fresh generated ids), `AddUserToGroup` and
`RemoveUserFromGroup` (under a sane pairing) preserves this lock-step
equality: members are inserted into, or removed from, both relations
together. -/
theorem group_lockstep_invariant :
    (∀ s name creator memberIDs gid cid gidOut s',
      groupSynced s → freshGroupId s gid → freshConvId s cid →
      createGroup s name creator memberIDs gid cid = .ok (gidOut, s') →
      groupSynced s') ∧
    (∀ s gid uid adder s', groupSynced s → pairingSane s →
      addUserToGroup s gid uid adder = .ok s' → groupSynced s') ∧
    (∀ s gid uid s', groupSynced s → pairingSane s →
      removeUserFromGroup s gid uid = .ok s' → groupSynced s') :=
  ⟨fun s name creator memberIDs gid cid gidOut s' hs hg hc h =>
      createGroup_synced s name creator memberIDs gid cid gidOut s' hs hg hc h,
    fun s gid uid adder s' hs hp h =>
      addUserToGroup_synced s gid uid adder s' hs hp h,
    fun s gid uid s' hs hp h =>
      removeUserFromGroup_synced s gid uid s' hs hp h⟩

/-- C3 witness: adding `u2` to `g1` on `groupDB` keeps the group's
member set and the conversation's participant set in lock-step. -/
theorem group_lockstep_invariant_witness :
    groupSynced { groupDB with
      groupMembers := [⟨"g1", "u1"⟩, ⟨"g1", "u2"⟩],
      participants := [⟨"cg", "u1", none⟩, ⟨"cg", "u2", none⟩] } :=
  group_lockstep_invariant.2.1 groupDB "g1" "u2" "u1"
    { groupDB with
      groupMembers := [⟨"g1", "u1"⟩, ⟨"g1", "u2"⟩],
      participants := [⟨"cg", "u1", none⟩, ⟨"cg", "u2", none⟩] }
    groupDB_synced groupDB_pairingSane rfl
